import Mathlib

/-!
Shallow embedding of the `externref/macro` HTTP dispatch library
(`src/macro/request.py`, `src/macro/response.py`, `src/macro/server.py`).

Modelling conventions:
* Python dicts become insertion-ordered association lists (`dget`/`dset`/...).
* Python byte strings become `List Nat` (one entry per byte); `str` becomes
  `String`.
* ASGI events pushed through the `send` channel become the `Event` inductive;
  the Latin-1 encoding the source applies to header names and values is
  injective on strings, so headers are kept as strings.
* Stateful methods become state-passing functions; methods that can raise
  return `Except`/`Option`.
-/

/-! ### Python dict model (insertion-ordered association lists) -/

/-- Lookup in a Python dict: `d.get(k)`, or `d[k]` with `none` for
`KeyError`. -/
def dget {α : Type} : List (String × α) → String → Option α
  | [], _ => none
  | p :: t, k => if p.1 = k then some p.2 else dget t k

/-- Membership test `k in d`. -/
def dmem {α : Type} : List (String × α) → String → Bool
  | [], _ => false
  | p :: t, k => p.1 = k || dmem t k

/-- Assignment `d[k] = v`: overwrite the binding in place when the key is
present, otherwise append at the end (Python dicts preserve insertion
order; they never hold a key twice, so replacing the first binding is
replacing the only one). -/
def dset {α : Type} : List (String × α) → String → α → List (String × α)
  | [], k, v => [(k, v)]
  | p :: t, k, v => if p.1 = k then (k, v) :: t else p :: dset t k v

/-- Deletion `del d[k]`. -/
def ddel {α : Type} (d : List (String × α)) (k : String) : List (String × α) :=
  d.filter (fun p => p.1 ≠ k)

/-! ### Python string helpers -/

/-- One character of Python `str.lower`.  The library only lower-cases HTTP
header names and keys, which are ASCII, so the ASCII case mapping is the
relevant fragment. -/
def charLower (c : Char) : Char :=
  if 65 ≤ c.toNat ∧ c.toNat ≤ 90 then Char.ofNat (c.toNat + 32) else c

/-- Python `str.lower` (ASCII fragment, see `charLower`). -/
def strLower (s : String) : String := ⟨s.data.map charLower⟩

/-- Python's `str.strip` whitespace class (ASCII fragment). -/
def isPySpace (c : Char) : Bool :=
  c = ' ' ∨ c = '\t' ∨ c = '\n' ∨ c = '\r' ∨ c = '\x0b' ∨ c = '\x0c'

/-- Python `str.strip()`. -/
def pyStrip (s : String) : String :=
  ⟨((s.data.dropWhile isPySpace).reverse.dropWhile isPySpace).reverse⟩

/-- Scanner for Python `str.split(sep)` with a one-character separator:
emit the accumulated piece at each separator occurrence, keeping empty
pieces, exactly like Python. -/
def pySplit1 (s0 : Char) (acc : List Char) : List Char → List (List Char)
  | [] => [acc]
  | c :: rest =>
    if c = s0 then acc :: pySplit1 s0 [] rest
    else pySplit1 s0 (acc ++ [c]) rest

/-- Scanner for Python `str.split(sep)` with a two-character separator:
split at each leftmost, non-overlapping occurrence. -/
def pySplit2 (s0 s1 : Char) (acc : List Char) : List Char → List (List Char)
  | [] => [acc]
  | [c] => [acc ++ [c]]
  | c :: c2 :: rest =>
    if c = s0 ∧ c2 = s1 then acc :: pySplit2 s0 s1 [] rest
    else pySplit2 s0 s1 (acc ++ [c]) (c2 :: rest)

/-- Python `str.split(sep)` for a one-character separator string (the
library splits on `":"`, `" "`, `"?"`, `"&"` and `"="`). -/
def pySplitC (s0 : Char) (s : String) : List String :=
  (pySplit1 s0 [] s.data).map (fun l => ⟨l⟩)

/-- Python `str.split("\r\n")`, the only multi-character split the library
performs. -/
def pySplitCRLF (s : String) : List String :=
  (pySplit2 '\r' '\n' [] s.data).map (fun l => ⟨l⟩)

/-- UTF-8 encoding of one character (`str.encode("utf-8")`). -/
def charUtf8 (c : Char) : List Nat :=
  let n := c.toNat
  if n < 128 then [n]
  else if n < 2048 then [192 + n / 64, 128 + n % 64]
  else if n < 65536 then [224 + n / 4096, 128 + n / 64 % 64, 128 + n % 64]
  else [240 + n / 262144, 128 + n / 4096 % 64, 128 + n / 64 % 64, 128 + n % 64]

/-- UTF-8 encoding of a string (`str.encode("utf-8")`); Python bytes
literals such as `b"Not Found"` are the UTF-8 bytes of their ASCII text. -/
def utf8 (s : String) : List Nat := (s.data.map charUtf8).flatten

/-! ### `macro/response.py` -/

/-- ASGI events pushed through the `send` channel: `http.response.start`
carries the status and the prepared header list, `http.response.body`
carries bytes and the `more_body` continuation flag. -/
inductive Event where
  | start (status : Nat) (headers : List (String × String))
  | body (data : List Nat) (more_body : Bool)
deriving DecidableEq, Repr

/-- Model of `Response`: status code, insertion-ordered header dict, body bytes and
the one-shot `_sent` flag (`False` at construction). -/
structure Response where
  status : Nat
  headers : List (String × String)
  body : List Nat
  sent : Bool
deriving DecidableEq, Repr

/-- Model of `Response.prepare_headers`: copy the header dict, add `Content-Length`
computed from the body when that exact key is absent, then lower-case all
keys (the source also Latin-1-encodes names and values, which is injective
on strings). -/
def Response.prepare_headers (r : Response) : List (String × String) :=
  let final_headers :=
    if dmem r.headers "Content-Length" then r.headers
    else dset r.headers "Content-Length" (toString r.body.length)
  final_headers.map (fun p => (strLower p.1, p.2))

/-- Model of `Response.send`: raises `RuntimeError` when already sent (before any
event is pushed); otherwise emits one start event and one final body event
and marks the instance sent. -/
def Response.send (r : Response) : Except String (List Event × Response) :=
  if r.sent then .error "Response has already been sent"
  else .ok ([.start r.status r.prepare_headers,
             .body r.body false], { r with sent := true })

/-- The `Set-Cookie` line built by one `Response.set_cookie` call:
`name=value` followed by the requested attributes, joined with `"; "`.
`max_age`/`expires` are compared against `None`; `path`, `domain` and
`same_site` are tested for truthiness (non-empty string). -/
def cookieLine (name value : String) (max_age : Option Int)
    (expires : Option String) (path : String) (domain : Option String)
    (secure : Bool) (http_only : Bool) (same_site : Option String) : String :=
  let parts := [name ++ "=" ++ value]
  let parts := match max_age with
    | some n => parts ++ ["Max-Age=" ++ toString n]
    | none => parts
  let parts := match expires with
    | some e => parts ++ ["Expires=" ++ e]
    | none => parts
  let parts := if path ≠ "" then parts ++ ["Path=" ++ path] else parts
  let parts := match domain with
    | some d => if d ≠ "" then parts ++ ["Domain=" ++ d] else parts
    | none => parts
  let parts := if secure then parts ++ ["Secure"] else parts
  let parts := if http_only then parts ++ ["HttpOnly"] else parts
  let parts := match same_site with
    | some s2 => if s2 ≠ "" then parts ++ ["SameSite=" ++ s2] else parts
    | none => parts
  String.intercalate "; " parts

/-- Model of `Response.set_cookie`: a first call stores the cookie line under the
`Set-Cookie` key; later calls append to the existing value separated by a
newline (still a single dict entry). -/
def Response.set_cookie (r : Response) (name value : String)
    (max_age : Option Int) (expires : Option String) (path : String)
    (domain : Option String) (secure : Bool) (http_only : Bool)
    (same_site : Option String) : Response :=
  let cookie_header :=
    cookieLine name value max_age expires path domain secure http_only same_site
  if dmem r.headers "Set-Cookie" then
    let old := (dget r.headers "Set-Cookie").getD ""
    { r with headers := dset r.headers "Set-Cookie" (old ++ "\n" ++ cookie_header) }
  else
    { r with headers := dset r.headers "Set-Cookie" cookie_header }

/-- A chunk of streaming content: either a byte string, or any other value,
represented by its `str()` text (the source coerces non-bytes chunks
through `str(chunk).encode("utf-8")`). -/
inductive Chunk where
  | bytes (b : List Nat)
  | text (s : String)
deriving DecidableEq, Repr

/-- The bytes `StreamingResponse.send` puts in a body event for a chunk. -/
def Chunk.toBytes : Chunk → List Nat
  | .bytes b => b
  | .text s => utf8 s

/-- Model of `StreamingResponse` content: an iterable of chunks, or a single
non-iterable value (`bytes` and `str` are explicitly excluded from the
iterable branch by the source's `is_iterable` test). -/
inductive StreamContent where
  | items (chunks : List Chunk)
  | scalar (c : Chunk)
deriving DecidableEq, Repr

/-- Model of `StreamingResponse`: the base-class fields plus the content; the body
byte string is fixed to `b""` at construction. -/
structure StreamingResponse where
  status : Nat
  headers : List (String × String)
  body : List Nat
  sent : Bool
  content : StreamContent
deriving DecidableEq, Repr

/-- Model of `StreamingResponse.__init__`: base construction with `body=b""`, then a
caller-supplied `Content-Length` header is deleted. -/
def StreamingResponse.make (content : StreamContent) (status : Nat)
    (headers : List (String × String)) : StreamingResponse :=
  let r : StreamingResponse :=
    { status := status, headers := headers, body := [], sent := false,
      content := content }
  if dmem r.headers "Content-Length" then
    { r with headers := ddel r.headers "Content-Length" }
  else r

/-- The inherited `Response.prepare_headers` applied to a streaming
response's own fields (the subclass does not override it). -/
def StreamingResponse.prepare_headers (r : StreamingResponse) :
    List (String × String) :=
  Response.prepare_headers
    { status := r.status, headers := r.headers, body := r.body, sent := r.sent }

/-- The per-chunk loop of `StreamingResponse.send`: one continuation body
event per chunk, in order. -/
def emitChunks : List Chunk → List Event
  | [] => []
  | c :: rest => .body c.toBytes true :: emitChunks rest

/-- Model of `StreamingResponse.send`: raises on double send before pushing anything;
otherwise emits the start event, then for iterable content one body event
per chunk followed by an empty terminal event, and for non-iterable content
a single final body event. -/
def StreamingResponse.send (r : StreamingResponse) :
    Except String (List Event × StreamingResponse) :=
  if r.sent then .error "Response has already been sent"
  else
    let startEv : Event := .start r.status r.prepare_headers
    match r.content with
    | .items chunks =>
        .ok (startEv :: (emitChunks chunks ++ [.body [] false]),
             { r with sent := true })
    | .scalar c =>
        .ok ([startEv, .body c.toBytes false], { r with sent := true })

/-! ### `macro/request.py` -/

/-- The Unicode replacement character U+FFFD. -/
def replChar : Char := Char.ofNat 0xFFFD

/-- A UTF-8 continuation byte. -/
def isCont (b : Nat) : Bool := 128 ≤ b ∧ b ≤ 191

/-- Valid first continuation byte after a three-byte lead (the `E0` and
`ED` leads have restricted ranges, which also excludes surrogates). -/
def cont3OK (lead c1 : Nat) : Bool :=
  if lead = 224 then 160 ≤ c1 ∧ c1 ≤ 191
  else if lead = 237 then 128 ≤ c1 ∧ c1 ≤ 159
  else isCont c1

/-- Valid first continuation byte after a four-byte lead (the `F0` and `F4`
leads have restricted ranges, keeping the scalar value below `0x110000`). -/
def cont4OK (lead c1 : Nat) : Bool :=
  if lead = 240 then 144 ≤ c1 ∧ c1 ≤ 191
  else if lead = 244 then 128 ≤ c1 ∧ c1 ≤ 143
  else isCont c1

/-- Model of `bytes.decode("utf-8", errors="replace")`: UTF-8 decoding with one
U+FFFD replacement per maximal subpart of an ill-formed sequence, which is
CPython's behaviour. -/
def utf8DecodeReplaceAux : List Nat → List Char
  | [] => []
  | b :: rest =>
    if b < 128 then Char.ofNat b :: utf8DecodeReplaceAux rest
    else if 194 ≤ b ∧ b ≤ 223 then
      match rest with
      | c1 :: r1 =>
        if isCont c1 then
          Char.ofNat ((b - 192) * 64 + (c1 - 128)) :: utf8DecodeReplaceAux r1
        else replChar :: utf8DecodeReplaceAux (c1 :: r1)
      | [] => [replChar]
    else if 224 ≤ b ∧ b ≤ 239 then
      match rest with
      | c1 :: r1 =>
        if cont3OK b c1 then
          match r1 with
          | c2 :: r2 =>
            if isCont c2 then
              Char.ofNat ((b - 224) * 4096 + (c1 - 128) * 64 + (c2 - 128)) ::
                utf8DecodeReplaceAux r2
            else replChar :: utf8DecodeReplaceAux (c2 :: r2)
          | [] => [replChar]
        else replChar :: utf8DecodeReplaceAux (c1 :: r1)
      | [] => [replChar]
    else if 240 ≤ b ∧ b ≤ 244 then
      match rest with
      | c1 :: r1 =>
        if cont4OK b c1 then
          match r1 with
          | c2 :: r2 =>
            if isCont c2 then
              match r2 with
              | c3 :: r3 =>
                if isCont c3 then
                  Char.ofNat ((b - 240) * 262144 + (c1 - 128) * 4096 +
                    (c2 - 128) * 64 + (c3 - 128)) :: utf8DecodeReplaceAux r3
                else replChar :: utf8DecodeReplaceAux (c3 :: r3)
              | [] => [replChar]
            else replChar :: utf8DecodeReplaceAux (c2 :: r2)
          | [] => [replChar]
        else replChar :: utf8DecodeReplaceAux (c1 :: r1)
      | [] => [replChar]
    else replChar :: utf8DecodeReplaceAux rest

/-- Model of `bytes.decode("utf-8", errors="replace")` as a `String`. -/
def utf8DecodeReplace (bs : List Nat) : String := ⟨utf8DecodeReplaceAux bs⟩

/-- Digit run of a Python decimal integer literal after the first digit:
single underscores are allowed between digits. -/
def pyDigitsAux (acc : Nat) : List Char → Option Nat
  | [] => some acc
  | '_' :: c :: rest =>
      if c.isDigit then pyDigitsAux (acc * 10 + (c.toNat - 48)) rest else none
  | ['_'] => none
  | c :: rest =>
      if c.isDigit then pyDigitsAux (acc * 10 + (c.toNat - 48)) rest else none

/-- Digit run of a Python decimal integer: at least one ASCII digit. -/
def pyDigits : List Char → Option Nat
  | c :: rest => if c.isDigit then pyDigitsAux (c.toNat - 48) rest else none
  | [] => none

/-- Python `int(s)` on a string: strip whitespace, allow one sign, then
ASCII decimal digits with single interior underscores; `none` models the
`ValueError` raised on any other input. -/
def pyInt (s : String) : Option Int :=
  match (pyStrip s).data with
  | '+' :: ds => (pyDigits ds).map Int.ofNat
  | '-' :: ds => (pyDigits ds).map (fun n => -(n : Int))
  | ds => (pyDigits ds).map Int.ofNat

/-- Model of `RequestHeader`: the `_headers` dict plus the request-line fields (all
empty by default). -/
structure RequestHeader where
  headers : List (String × String)
  method : String
  path : String
  http_version : String
deriving DecidableEq, Repr

/-- Model of `RequestHeader()`: all fields at their defaults. -/
def RequestHeader.empty : RequestHeader := ⟨[], "", "", ""⟩

/-- Model of `__setitem__`: stores under the lower-cased key (`str(value)` is the
identity: values are already strings). -/
def RequestHeader.setItem (h : RequestHeader) (k v : String) : RequestHeader :=
  { h with headers := dset h.headers (strLower k) v }

/-- Model of `__getitem__`; the `KeyError` on a missing key is modelled by `none`. -/
def RequestHeader.getItem (h : RequestHeader) (k : String) : Option String :=
  dget h.headers (strLower k)

/-- Model of `__contains__`. -/
def RequestHeader.mem (h : RequestHeader) (k : String) : Bool :=
  dmem h.headers (strLower k)

/-- Model of `get(key, default)`. -/
def RequestHeader.get (h : RequestHeader) (k : String)
    (default : Option String) : Option String :=
  match dget h.headers (strLower k) with
  | some v => some v
  | none => default

/-- The `content_length` property: a missing header or an `int()` failure
(`except ValueError: pass`) yields `None`. -/
def RequestHeader.content_length (h : RequestHeader) : Option Int :=
  match h.get "content-length" none with
  | some length =>
      match pyInt length with
      | some n => some n
      | none => none
  | none => none

/-- Python `line.split(":", 1)`: the part before the first colon and
everything after it. -/
def splitColon1 (line : String) : String × String :=
  let ps := pySplitC ':' line
  (ps.headD "", String.intercalate ":" ps.tail)

/-- The loop body shared by `from_raw_headers` and `from_lines`: a line
containing a colon is split at the first colon, both sides stripped, and
inserted through `__setitem__`; other lines are ignored. -/
def insertHeaderLine (h : RequestHeader) (line : String) : RequestHeader :=
  if ':' ∈ line.data then
    h.setItem (pyStrip (splitColon1 line).1) (pyStrip (splitColon1 line).2)
  else h

/-- The request-line handling shared by `from_raw_headers` and
`from_lines`: when the first line contains a space and splits (on every
single space) into at least three tokens, the first three become method,
path and HTTP version; otherwise all three fields stay empty.  The header
dict starts empty. -/
def requestLineFields (lines : List String) : RequestHeader :=
  match lines with
  | [] => RequestHeader.empty
  | line0 :: _ =>
    if ' ' ∈ line0.data then
      let request_parts := pySplitC ' ' line0
      if 3 ≤ request_parts.length then
        { RequestHeader.empty with
            method := request_parts.getD 0 "",
            path := request_parts.getD 1 "",
            http_version := request_parts.getD 2 "" }
      else RequestHeader.empty
    else RequestHeader.empty

/-- The shared body of `from_raw_headers`/`from_lines`: request-line
fields from the first line, then every later line folded through
`insertHeaderLine`. -/
def headerObjOfLines (lines : List String) : RequestHeader :=
  (lines.drop 1).foldl insertHeaderLine (requestLineFields lines)

/-- Model of `RequestHeader.from_raw_headers`: decode the bytes as UTF-8 with
replacement, split on `"\r\n"`, and process the lines. -/
def RequestHeader.from_raw_headers (header_data : List Nat) : RequestHeader :=
  headerObjOfLines (pySplitCRLF (utf8DecodeReplace header_data))

/-- Model of `Request`: immutable headers plus body bytes.  The lazily-memoized
query/body caches of the source are observationally irrelevant in a pure
model. -/
structure Request where
  headers : RequestHeader
  body : List Nat
deriving DecidableEq, Repr

/-- Model of `path` property. -/
def Request.path (r : Request) : String := r.headers.path

/-- Model of `method` property. -/
def Request.method (r : Request) : String := r.headers.method

/-- Model of `content_length` property (delegates to the header container). -/
def Request.content_length (r : Request) : Option Int :=
  r.headers.content_length

/-- Model of `query_string` property: everything after the first `"?"` of the path,
or the empty string. -/
def Request.query_string (r : Request) : String :=
  if '?' ∈ r.path.data then
    String.intercalate "?" ((pySplitC '?' r.path).tail)
  else ""

/-- Model of `s.replace("+", " ")`. -/
def plusToSpace (s : String) : String :=
  ⟨s.data.map (fun c => if c = '+' then ' ' else c)⟩

/-- Value of an ASCII hex digit. -/
def hexVal (c : Char) : Option Nat :=
  if '0' ≤ c ∧ c ≤ '9' then some (c.toNat - 48)
  else if 'a' ≤ c ∧ c ≤ 'f' then some (c.toNat - 87)
  else if 'A' ≤ c ∧ c ≤ 'F' then some (c.toNat - 55)
  else none

/-- Percent-decoding core of `urllib.parse.unquote` at byte level: literal
characters contribute their UTF-8 bytes, `%xx` escapes contribute the byte
`xx`, and a `%` not followed by two hex digits stays literal. -/
def unquoteBytes : List Char → List Nat
  | [] => []
  | '%' :: rest =>
      (match rest with
       | a :: b :: rest2 =>
         match hexVal a, hexVal b with
         | some x, some y => (x * 16 + y) :: unquoteBytes rest2
         | _, _ => charUtf8 '%' ++ unquoteBytes (a :: b :: rest2)
       | [a] => charUtf8 '%' ++ unquoteBytes [a]
       | [] => charUtf8 '%')
  | c :: rest => charUtf8 c ++ unquoteBytes rest

/-- Model of `urllib.parse.unquote(s)` with the default `errors="replace"`: decode
the percent-escaped byte sequence as UTF-8 with replacement (byte-level
model of CPython's chunked implementation, identical on ASCII input). -/
def pyUnquote (s : String) : String := utf8DecodeReplace (unquoteBytes s.data)

/-- One field of `urllib.parse.parse_qsl` under the default arguments:
dropped when empty, without `=`, or with an empty value; `+` becomes a
space on both sides before percent-decoding. -/
def qslField (field : String) : Option (String × String) :=
  if field = "" then none
  else if '=' ∈ field.data then
    let ps := pySplitC '=' field
    let value := String.intercalate "=" ps.tail
    if value ≠ "" then
      some (pyUnquote (plusToSpace (ps.headD "")),
            pyUnquote (plusToSpace value))
    else none
  else none

/-- Model of `urllib.parse.parse_qsl(qs)` with default arguments: split on `&` and
keep the surviving name/value fields. -/
def parse_qsl (qs : String) : List (String × String) :=
  (pySplitC '&' qs).filterMap qslField

/-- Model of `urllib.parse.parse_qs(qs)`: group the `parse_qsl` pairs into a dict of
value lists, first-occurrence key order, later values appended. -/
def parse_qs (qs : String) : List (String × List String) :=
  (parse_qsl qs).foldl
    (fun d p =>
      match dget d p.1 with
      | some vs => dset d p.1 (vs ++ [p.2])
      | none => dset d p.1 [p.2]) []

/-- A parsed query value: single-valued keys collapse to the scalar string,
multi-valued keys keep the list of strings. -/
inductive QueryVal where
  | scalar (s : String)
  | list (vs : List String)
deriving DecidableEq, Repr

/-- Model of `Request.query`: parse a non-empty query string with `parse_qs` and
collapse one-element value lists to scalars; an empty query string yields
the empty mapping. -/
def Request.query (r : Request) : List (String × QueryVal) :=
  let qs := r.query_string
  if qs ≠ "" then
    (parse_qs qs).map
      (fun p =>
        (p.1, if p.2.length = 1 then QueryVal.scalar (p.2.headD "")
              else QueryVal.list p.2))
  else []


/-! ### `macro/server.py`

The `Macro` class (called `Router` below): `route` compiles the path
template with `re.sub(r"{([^/]+)}", r"(?P<name>[^/]+)", path)` — each
`{name}` placeholder becomes one named capturing group matching `[^/]+` —
and `_find_route` matches the compiled pattern against the whole incoming
path with `re.fullmatch`. -/

/-- One piece of a compiled route pattern: a literal run, or a named
capturing group matching `[^/]+`. -/
inductive PatPart where
  | lit (s : String)
  | var (name : String)
deriving DecidableEq, Repr

/-- Largest index `p ≥ 1` of a closing brace in the slash-free run after an
opening brace: the placeholder pattern's `[^/]+` content is greedy, so
`re.sub` consumes up to the last such brace. -/
def lastBracePos (run : List Char) : Option Nat :=
  (List.range run.length).foldl
    (fun acc p => if 1 ≤ p ∧ run.getD p ' ' = '\x7d' then some p else acc) none

/-- Prepend a literal character to a part list, merging with a leading
literal part. -/
def consLit (c : Char) : List PatPart → List PatPart
  | .lit s :: ps => .lit ⟨c :: s.data⟩ :: ps
  | ps => .lit ⟨[c]⟩ :: ps

/-- Model of `re.sub(r"{([^/]+)}", r"(?P<name>[^/]+)", path)`: scan left to right;
at each `{`, a non-empty slash-free content followed by `}` (greedily the
longest, hence `lastBracePos`) becomes a capturing group, and otherwise the
brace stays literal. -/
def compileTemplate : List Char → List PatPart
  | [] => []
  | '\x7b' :: rest =>
    (match lastBracePos (rest.takeWhile (fun c => c ≠ '/')) with
     | some p => PatPart.var ⟨rest.take p⟩ :: compileTemplate (rest.drop (p + 1))
     | none => consLit '\x7b' (compileTemplate rest))
  | c :: rest => consLit c (compileTemplate rest)
termination_by cs => cs.length
decreasing_by all_goals simp_wf <;> (try simp only [List.length_drop]) <;> omega

mutual
/-- Model of `re.fullmatch` of a compiled pattern against a path, returning the
named captures (`match.groupdict()`) in group order: literals must match
exactly and a capturing group matches one or more non-slash characters,
greedily with backtracking. -/
def matchParts : List PatPart → List Char → Option (List (String × String))
  | [], [] => some []
  | [], _ :: _ => none
  | .lit s :: ps, cs =>
      if s.data.isPrefixOf cs then matchParts ps (cs.drop s.data.length)
      else none
  | .var n :: ps, cs =>
      varLoop n ps cs (cs.takeWhile (fun c => c ≠ '/')).length
termination_by ps cs => (cs.length, 2 * ps.length + 1, 0)
decreasing_by
  all_goals simp_wf <;> (try simp only [List.length_drop]) <;>
    simp [Prod.lex_iff] <;> omega

/-- Backtracking loop for one `[^/]+` group: try to capture `k` characters,
longest candidate first. -/
def varLoop (n : String) (ps : List PatPart) (cs : List Char) :
    Nat → Option (List (String × String))
  | 0 => none
  | k + 1 =>
      match matchParts ps (cs.drop (k + 1)) with
      | some g => some ((n, ⟨cs.take (k + 1)⟩) :: g)
      | none => varLoop n ps cs k
termination_by k => (cs.length, 2 * ps.length + 2, k)
decreasing_by
  all_goals simp_wf <;> (try simp only [List.length_drop]) <;>
    simp [Prod.lex_iff] <;> omega
end

/-- The path-variable annotations modelled: the source calls a handler
parameter's annotation as a constructor on the captured string; `int`
raises `ValueError` on a non-integer and `str` is the identity. -/
inductive Ann where
  | int
  | str
deriving DecidableEq, Repr

/-- A dispatched path-variable value after casting. -/
inductive Value where
  | str (s : String)
  | int (n : Int)
deriving DecidableEq, Repr

/-- Model of `param.annotation(path_vars[name])`; a `TypeError`/`ValueError` becomes
`none`. -/
def applyAnn : Ann → String → Option Value
  | .int, s => (pyInt s).map Value.int
  | .str, s => some (Value.str s)

/-- A route handler: its signature (parameter names with optional
annotations, as read through `inspect.signature`) and its behaviour as a
pure function from the request and the cast path variables to the response
it returns. -/
structure Handler where
  params : List (String × Option Ann)
  run : Request → List (String × Value) → Response

/-- The annotation `Macro._cast_path_vars` applies for a path variable: the
annotation of the same-named handler parameter, when that parameter exists
and is annotated. -/
def annFor (params : List (String × Option Ann)) (name : String) :
    Option Ann :=
  match dget params name with
  | some (some a) => some a
  | _ => none

/-- Model of `Macro._cast_path_vars`: every captured variable with a same-named
annotated parameter is replaced by the annotation applied to its string;
the other variables keep their string value.  A failing conversion raises
`ValueError` (modelled by `none`), which the caller turns into a 404. -/
def castPathVars (params : List (String × Option Ann))
    (path_vars : List (String × String)) : Option (List (String × Value)) :=
  path_vars.mapM
    (fun p =>
      match annFor params p.1 with
      | some a => (applyAnn a p.2).map (fun v => (p.1, v))
      | none => some (p.1, Value.str p.2))

/-- The route table `Macro.routes`: compiled pattern ↦ (method ↦ handler),
both dicts insertion-ordered.  Capture names are assumed to be valid
Python identifiers; on templates like `/a/{x}-{y}` the source raises
`re.error` when the stored pattern is compiled, which is outside this
model. -/
abbrev Routes : Type := List (List PatPart × List (String × Handler))

/-- Model of `Macro.route(path, method)` applied to a handler: compile the template,
create the pattern's method dict if the pattern is new, then store the
handler under the method (silently overwriting). -/
def Router.route (routes : Routes) (path method : String) (func : Handler) :
    Routes :=
  let path_regex := compileTemplate path.data
  let routes1 : Routes :=
    if routes.any (fun p => p.1 = path_regex) then routes
    else routes ++ [(path_regex, [])]
  routes1.map
    (fun p => if p.1 = path_regex then (p.1, dset p.2 method func) else p)

/-- Model of `Macro._find_route`: walk the route table in registration order; the
first pattern that fullmatches the path with the method registered wins,
returning the handler and `match.groupdict()`; otherwise `(None, {})`. -/
def findRoute (routes : Routes) (path method : String) :
    Option Handler × List (String × String) :=
  match routes with
  | [] => (none, [])
  | (route_path, methods) :: rest =>
    match matchParts route_path path.data with
    | some gd =>
        match dget methods method with
        | some fn => (some fn, gd)
        | none => findRoute rest path method
    | none => findRoute rest path method

/-- The fields of an ASGI HTTP scope that the dispatcher reads.  Header
names and values arrive as Latin-1-decodable byte pairs and are kept as
strings (the decode is injective). -/
structure Scope where
  method : String
  path : String
  http_version : String
  headers : List (String × String)

/-- One message from the `receive` channel: an `http.request` message with
body bytes and the `more_body` flag (absent keys are the empty body and
`False`), or a message of any other type. -/
inductive Msg where
  | httpRequest (body : List Nat) (more_body : Bool)
  | other

/-- The body-accumulation loop of `Macro._parse`: pull messages, appending
`http.request` bodies, until one has `more_body` false; other message
types are skipped.  `none` models the loop awaiting forever on an
exhausted transport. -/
def accumBody (acc : List Nat) : List Msg → Option (List Nat)
  | [] => none
  | .httpRequest b more :: rest =>
      if more then accumBody (acc ++ b) rest else some (acc ++ b)
  | .other :: rest => accumBody acc rest

/-- The header half of `Macro._parse`: request-line fields from the scope
(the HTTP version gets an `"HTTP/"` prefix) and each scope header inserted
through `__setitem__`. -/
def parseScope (scope : Scope) : RequestHeader :=
  scope.headers.foldl (fun h p => h.setItem p.1 p.2)
    { RequestHeader.empty with
        method := scope.method, path := scope.path,
        http_version := "HTTP/" ++ scope.http_version }

/-- Model of `Macro.handle_http`: parse, find a route, cast path variables, invoke
the handler and send its response.  The source awaits `response.send` only
inside the `else` branch of `if fn is None`, so when no route matches the
404 response is constructed but no event is emitted.  The result is `none`
when the call does not complete normally (body accumulation exhausts the
transport, or a double-send `RuntimeError` escapes). -/
def handle_http (routes : Routes) (scope : Scope) (msgs : List Msg) :
    Option (List Event) :=
  match accumBody [] msgs with
  | none => none
  | some body =>
    let headers := parseScope scope
    let fr := findRoute routes scope.path scope.method
    match fr.1 with
    | none =>
        -- `response = Response(status=404, body=b"Not Found")` is built
        -- here, but the `await response.send(send)` sits inside the other
        -- branch: nothing is emitted.
        some []
    | some fn =>
      match castPathVars fn.params fr.2 with
      | none =>
          match (Response.mk 404 [] (utf8 "Not Found") false).send with
          | .ok x => some x.1
          | .error _ => none
      | some path_vars =>
          let request : Request := { headers := headers, body := body }
          let response := fn.run request path_vars
          match response.send with
          | .ok x => some x.1
          | .error _ => none

/-! ### Helper lemmas: the dictionary model -/

theorem dget_dset_self {α : Type} (d : List (String × α)) (k : String) (v : α) :
    dget (dset d k v) k = some v := by
  induction d with
  | nil => simp [dset, dget]
  | cons p t ih =>
    by_cases hp : p.1 = k
    · simp [dset, hp, dget]
    · simp [dset, hp, dget, ih]

theorem dget_dset_ne {α : Type} (d : List (String × α)) (k k2 : String) (v : α)
    (h : k2 ≠ k) : dget (dset d k v) k2 = dget d k2 := by
  have hne : ¬(k = k2) := fun hh => h hh.symm
  induction d with
  | nil => simp only [dset, dget, if_neg hne]
  | cons p t ih =>
    by_cases hp : p.1 = k
    · simp only [dset, if_pos hp, dget, hp, if_neg hne]
    · simp only [dset, if_neg hp, dget, ih]

theorem dmem_dset_self {α : Type} (d : List (String × α)) (k : String) (v : α) :
    dmem (dset d k v) k = true := by
  induction d with
  | nil => simp [dset, dmem]
  | cons p t ih =>
    by_cases hp : p.1 = k
    · simp [dset, hp, dmem]
    · simp [dset, hp, dmem, ih]

theorem dmem_dset_of_dmem {α : Type} (d : List (String × α)) (k k2 : String)
    (v : α) (h : dmem d k2 = true) : dmem (dset d k v) k2 = true := by
  induction d with
  | nil => simp [dmem] at h
  | cons p t ih =>
    simp only [dmem, Bool.or_eq_true, decide_eq_true_eq] at h
    by_cases hp : p.1 = k
    · simp only [dset, if_pos hp, dmem, Bool.or_eq_true, decide_eq_true_eq]
      rcases h with h | h
      · exact Or.inl (hp.symm.trans h)
      · exact Or.inr h
    · simp only [dset, if_neg hp, dmem, Bool.or_eq_true, decide_eq_true_eq]
      rcases h with h | h
      · exact Or.inl h
      · exact Or.inr (ih h)

theorem mem_dset {α : Type} {d : List (String × α)} {k : String} {v : α}
    {q : String × α} (h : q ∈ dset d k v) : q = (k, v) ∨ q ∈ d := by
  induction d with
  | nil => simp [dset] at h; simp [h]
  | cons p t ih =>
    by_cases hp : p.1 = k
    · simp [dset, hp] at h
      rcases h with h | h
      · exact Or.inl h
      · exact Or.inr (List.mem_cons_of_mem _ h)
    · simp [dset, hp] at h
      rcases h with h | h
      · exact Or.inr (by simp [h])
      · rcases ih h with h2 | h2
        · exact Or.inl h2
        · exact Or.inr (List.mem_cons_of_mem _ h2)

theorem keys_dset_of_dmem {α : Type} (d : List (String × α)) (k : String)
    (v : α) (h : dmem d k = true) :
    (dset d k v).map Prod.fst = d.map Prod.fst := by
  induction d with
  | nil => simp [dmem] at h
  | cons p t ih =>
    by_cases hp : p.1 = k
    · simp [dset, hp]
    · simp [dmem, hp] at h
      simp [dset, hp, ih h]

theorem keys_dset_sub {α : Type} {d : List (String × α)} {k x : String}
    {v : α} (h : x ∈ (dset d k v).map Prod.fst) :
    x = k ∨ x ∈ d.map Prod.fst := by
  rcases List.mem_map.mp h with ⟨q, hq, hx⟩
  rcases mem_dset hq with h2 | h2
  · exact Or.inl (by rw [← hx, h2])
  · exact Or.inr (List.mem_map.mpr ⟨q, h2, hx⟩)

theorem keys_nodup_dset {α : Type} (d : List (String × α)) (k : String)
    (v : α) (h : (d.map Prod.fst).Nodup) :
    ((dset d k v).map Prod.fst).Nodup := by
  induction d with
  | nil => simp [dset]
  | cons p t ih =>
    simp only [List.map_cons, List.nodup_cons] at h
    by_cases hp : p.1 = k
    · simp only [dset, if_pos hp, List.map_cons, List.nodup_cons]
      exact ⟨hp ▸ h.1, h.2⟩
    · simp only [dset, if_neg hp, List.map_cons, List.nodup_cons]
      refine ⟨fun hx => ?_, ih h.2⟩
      rcases keys_dset_sub hx with h2 | h2
      · exact hp h2
      · exact h.1 h2

theorem filter_dset_key {α : Type} (d : List (String × α)) (k : String) (v : α)
    (hnd : (d.map Prod.fst).Nodup) :
    (dset d k v).filter (fun p => p.1 = k) = [(k, v)] := by
  induction d with
  | nil => simp [dset]
  | cons p t ih =>
    simp only [List.map_cons, List.nodup_cons] at hnd
    by_cases hp : p.1 = k
    · simp only [dset, if_pos hp, List.filter_cons]
      rw [if_pos (by simp)]
      have ht : t.filter (fun p => p.1 = k) = [] := by
        rw [List.filter_eq_nil_iff]
        intro q hq
        simp only [decide_eq_true_eq]
        intro hqk
        have hmem : q.1 ∈ t.map Prod.fst := List.mem_map_of_mem Prod.fst hq
        rw [hqk, ← hp] at hmem
        exact hnd.1 hmem
      rw [ht]
    · simp only [dset, if_neg hp, List.filter_cons]
      rw [if_neg (by simp [hp])]
      exact ih hnd.2

/-! ### Helper lemmas: lower-casing and splitting -/

theorem toNat_ofNat_lt (n : Nat) (h : n < 55296) : (Char.ofNat n).toNat = n := by
  rw [Char.ofNat, dif_pos (Or.inl h)]
  rfl

theorem charLower_toNat (c : Char) :
    (charLower c).toNat =
      if 65 ≤ c.toNat ∧ c.toNat ≤ 90 then c.toNat + 32 else c.toNat := by
  unfold charLower
  by_cases h : 65 ≤ c.toNat ∧ c.toNat ≤ 90
  · rw [if_pos h, if_pos h]
    exact toNat_ofNat_lt _ (by omega)
  · rw [if_neg h, if_neg h]

theorem charLower_eq_self (c : Char)
    (h : ¬(65 ≤ c.toNat ∧ c.toNat ≤ 90)) : charLower c = c := by
  unfold charLower
  rw [if_neg h]

theorem charLower_idem (c : Char) : charLower (charLower c) = charLower c := by
  by_cases h : 65 ≤ c.toNat ∧ c.toNat ≤ 90
  · have h1 : (charLower c).toNat = c.toNat + 32 := by
      rw [charLower_toNat, if_pos h]
    exact charLower_eq_self _ (by omega)
  · have h1 : charLower c = c := charLower_eq_self _ h
    rw [h1]
    exact h1

theorem map_charLower_idem (l : List Char) :
    (l.map charLower).map charLower = l.map charLower := by
  induction l with
  | nil => rfl
  | cons c t ih => simp only [List.map_cons, charLower_idem c, ih]

theorem strLower_idem (s : String) : strLower (strLower s) = strLower s :=
  congrArg String.mk (map_charLower_idem s.data)

theorem mem_of_pySplit1_len (c : Char) (acc cs : List Char)
    (h : 2 ≤ (pySplit1 c acc cs).length) : c ∈ cs := by
  induction cs generalizing acc with
  | nil => simp [pySplit1] at h
  | cons c2 rest ih =>
    by_cases hc : c2 = c
    · rw [hc]
      exact List.mem_cons_self c rest
    · rw [pySplit1, if_neg hc] at h
      exact List.mem_cons_of_mem c2 (ih (acc ++ [c2]) h)

/-! ### Helper lemmas: responses and header folding -/

theorem emitChunks_eq_map (chunks : List Chunk) :
    emitChunks chunks = chunks.map (fun c => Event.body c.toBytes true) := by
  induction chunks with
  | nil => rfl
  | cons c t ih => simp only [emitChunks, List.map_cons, ih]

theorem dget_query_map (d : List (String × List String)) (k : String) :
    dget (d.map (fun p => (p.1,
        if p.2.length = 1 then QueryVal.scalar (p.2.headD "")
        else QueryVal.list p.2))) k =
      (dget d k).map (fun vs =>
        if vs.length = 1 then QueryVal.scalar (vs.headD "")
        else QueryVal.list vs) := by
  induction d with
  | nil => rfl
  | cons p t ih =>
    simp only [List.map_cons, dget]
    by_cases hp : p.1 = k
    · rw [if_pos hp, if_pos hp]
      rfl
    · rw [if_neg hp, if_neg hp]
      exact ih

theorem insertHeaderLine_fields (h : RequestHeader) (line : String) :
    (insertHeaderLine h line).method = h.method ∧
    (insertHeaderLine h line).path = h.path ∧
    (insertHeaderLine h line).http_version = h.http_version := by
  unfold insertHeaderLine RequestHeader.setItem
  split <;> exact ⟨rfl, rfl, rfl⟩

theorem foldl_insertHeaderLine_fields (L : List String) (h0 : RequestHeader) :
    (L.foldl insertHeaderLine h0).method = h0.method ∧
    (L.foldl insertHeaderLine h0).path = h0.path ∧
    (L.foldl insertHeaderLine h0).http_version = h0.http_version := by
  induction L generalizing h0 with
  | nil => exact ⟨rfl, rfl, rfl⟩
  | cons l t ih =>
    rw [List.foldl_cons]
    have h1 := insertHeaderLine_fields h0 l
    have h2 := ih (insertHeaderLine h0 l)
    exact ⟨h2.1.trans h1.1, h2.2.1.trans h1.2.1, h2.2.2.trans h1.2.2⟩

theorem dmem_foldl_insert_of (L : List String) (h0 : RequestHeader)
    (key : String) (h : dmem h0.headers key = true) :
    dmem (L.foldl insertHeaderLine h0).headers key = true := by
  induction L generalizing h0 with
  | nil => exact h
  | cons l t ih =>
    rw [List.foldl_cons]
    apply ih
    unfold insertHeaderLine RequestHeader.setItem
    split
    · exact dmem_dset_of_dmem _ _ _ _ h
    · exact h

theorem dmem_foldl_insert_line (L : List String) (line : String)
    (hline : line ∈ L) (hcolon : ':' ∈ line.data) (h0 : RequestHeader) :
    dmem (L.foldl insertHeaderLine h0).headers
      (strLower (pyStrip (splitColon1 line).1)) = true := by
  induction L generalizing h0 with
  | nil => simp at hline
  | cons l t ih =>
    rw [List.foldl_cons]
    rcases List.mem_cons.mp hline with rfl | hmem
    · apply dmem_foldl_insert_of
      unfold insertHeaderLine RequestHeader.setItem
      rw [if_pos hcolon]
      exact dmem_dset_self _ _ _
    · exact ih hmem _

theorem mem_foldl_insert (L : List String) (h0 : RequestHeader)
    (p : String × String) (hp : p ∈ (L.foldl insertHeaderLine h0).headers) :
    p ∈ h0.headers ∨ ∃ line, line ∈ L ∧ ':' ∈ line.data ∧
      p.1 = strLower (pyStrip (splitColon1 line).1) ∧
      p.2 = pyStrip (splitColon1 line).2 := by
  induction L generalizing h0 with
  | nil => exact Or.inl hp
  | cons l t ih =>
    rw [List.foldl_cons] at hp
    rcases ih _ hp with h1 | ⟨line, hl, hc, h2, h3⟩
    · unfold insertHeaderLine RequestHeader.setItem at h1
      by_cases hcl : ':' ∈ l.data
      · rw [if_pos hcl] at h1
        rcases mem_dset h1 with h2 | h2
        · refine Or.inr ⟨l, List.mem_cons_self l t, hcl, ?_, ?_⟩
          · rw [h2]
          · rw [h2]
        · exact Or.inl h2
      · rw [if_neg hcl] at h1
        exact Or.inl h1
    · exact Or.inr ⟨line, List.mem_cons_of_mem l hl, hc, h2, h3⟩

theorem dmem_of_dget {α : Type} {d : List (String × α)} {k : String} {v : α}
    (h : dget d k = some v) : dmem d k = true := by
  induction d with
  | nil => simp [dget] at h
  | cons p t ih =>
    by_cases hp : p.1 = k
    · simp [dmem, hp]
    · rw [dget, if_neg hp] at h
      simp [dmem, hp, ih h]

/-! ### The claims -/

/-- C1: the claim says that a request matching no registered
(pattern, method) pair is answered on the transport with a 404 response
with body `"Not Found"`.  The code does construct that response, but the
`await response.send(send)` call is indented inside the `else` branch of
`if fn is None` (`src/macro/server.py`, `handle_http`), so in the no-route
case nothing at all is emitted: dispatching against an empty route table
completes with an empty event list — no start event, no body event. -/
theorem C1_no_route_emits_nothing :
    handle_http []
      { method := "GET", path := "/x", http_version := "1.1", headers := [] }
      [Msg.httpRequest [] false] = some [] := rfl

/-- C2: the claim says the emitted start event of a streaming response
never carries Content-Length.  Construction does strip a caller-supplied
Content-Length, but `StreamingResponse.send` calls the inherited
`Response.prepare_headers`, which auto-computes `Content-Length` from the
(empty) `body` field whenever the key is absent — so every streaming
response started without a caller-supplied Content-Length emits
`("content-length", "0")` in its start event. -/
theorem C2_streaming_start_has_content_length_zero :
    (StreamingResponse.make (StreamContent.items [Chunk.bytes (utf8 "a")])
        200 []).send =
      Except.ok
        ([Event.start 200 [("content-length", "0")],
          Event.body (utf8 "a") true, Event.body [] false],
         { status := 200, headers := [], body := [], sent := true,
           content := StreamContent.items [Chunk.bytes (utf8 "a")] }) := rfl

/-- C4: once `send` has completed on a response instance, a second `send`
on the resulting instance raises `RuntimeError` — and it raises on the
very first line, before pushing any event, so the first call's emitted
sequence is untouched (the model's error branch carries no events, exactly
as the source raises before any `await send_func(...)`). -/
theorem C4_double_send_fails (r : Response) (evs : List Event)
    (r2 : Response) (s : StreamingResponse) (sevs : List Event)
    (s2 : StreamingResponse)
    (h1 : r.send = Except.ok (evs, r2))
    (h2 : s.send = Except.ok (sevs, s2)) :
    r2.send = Except.error "Response has already been sent" ∧
    s2.send = Except.error "Response has already been sent" := by
  constructor
  · by_cases hs : r.sent
    · unfold Response.send at h1
      rw [if_pos hs] at h1
      exact absurd h1 (by simp)
    · unfold Response.send at h1
      rw [if_neg hs] at h1
      injection h1 with h1
      have hr : r2 = { r with sent := true } := (congrArg Prod.snd h1).symm
      rw [hr]
      simp [Response.send]
  · by_cases hs : s.sent
    · unfold StreamingResponse.send at h2
      rw [if_pos hs] at h2
      exact absurd h2 (by simp)
    · unfold StreamingResponse.send at h2
      rw [if_neg hs] at h2
      cases hc : s.content with
      | items chunks =>
        rw [hc] at h2
        injection h2 with h2
        have hr : s2 = StreamingResponse.mk s.status s.headers s.body true
            (StreamContent.items chunks) := congrArg Prod.snd h2.symm
        rw [hr]
        simp [StreamingResponse.send]
      | scalar c =>
        rw [hc] at h2
        injection h2 with h2
        have hr : s2 = StreamingResponse.mk s.status s.headers s.body true
            (StreamContent.scalar c) := congrArg Prod.snd h2.symm
        rw [hr]
        simp [StreamingResponse.send]

/-- Witness for C4 at a concrete sent pair. -/
theorem C4_double_send_fails_witness :
    (Response.mk 200 [] [] true).send =
      Except.error "Response has already been sent" ∧
    (StreamingResponse.mk 200 [] [] true (StreamContent.items [])).send =
      Except.error "Response has already been sent" :=
  C4_double_send_fails (Response.mk 200 [] [] false)
    [Event.start 200 [("content-length", "0")], Event.body [] false]
    (Response.mk 200 [] [] true)
    (StreamingResponse.mk 200 [] [] false (StreamContent.items []))
    [Event.start 200 [("content-length", "0")], Event.body [] false]
    (StreamingResponse.mk 200 [] [] true (StreamContent.items []))
    rfl rfl

/-- C5: sending an unsent streaming response whose content is a finite
chunk sequence emits, after the start event, one continuation body event
per chunk in order — with non-bytes chunks coerced to the UTF-8 encoding
of their text representation (`Chunk.toBytes`) — followed by exactly one
empty terminal body event; the `[b"a", b"b", b"c"]` instance emits bodies
`a`, `b`, `c` flagged `more_body=True` and then the empty final event. -/
theorem C5_streaming_chunk_events (r : StreamingResponse)
    (chunks : List Chunk) (hsent : r.sent = false)
    (hc : r.content = StreamContent.items chunks) :
    r.send = Except.ok
      (Event.start r.status r.prepare_headers ::
        (chunks.map (fun c => Event.body c.toBytes true) ++
          [Event.body [] false]),
       { r with sent := true }) ∧
    (∀ s : String, (Chunk.text s).toBytes = utf8 s) ∧
    (StreamingResponse.make
        (StreamContent.items
          [Chunk.bytes (utf8 "a"), Chunk.bytes (utf8 "b"),
           Chunk.bytes (utf8 "c")]) 200 []).send =
      Except.ok
        ([Event.start 200 [("content-length", "0")],
          Event.body (utf8 "a") true, Event.body (utf8 "b") true,
          Event.body (utf8 "c") true, Event.body [] false],
         { status := 200, headers := [], body := [], sent := true,
           content := StreamContent.items
             [Chunk.bytes (utf8 "a"), Chunk.bytes (utf8 "b"),
              Chunk.bytes (utf8 "c")] }) := by
  refine ⟨?_, fun s => rfl, rfl⟩
  unfold StreamingResponse.send
  rw [if_neg (by simp [hsent]), hc]
  simp [emitChunks_eq_map]

/-- Witness for C5 on the empty chunk list. -/
theorem C5_streaming_chunk_events_witness :
    (StreamingResponse.mk 200 [] [] false (StreamContent.items [])).send =
      Except.ok ([Event.start 200 [("content-length", "0")],
                  Event.body [] false],
        StreamingResponse.mk 200 [] [] true (StreamContent.items [])) :=
  ((C5_streaming_chunk_events
      (StreamingResponse.mk 200 [] [] false (StreamContent.items []))
      [] rfl rfl).1).trans rfl

/-- C6: the path `/search?q=a&q=b&x=1` parses to the query mapping
`{q: ["a","b"], x: "1"}`; in general a key that `parse_qs` maps to exactly
one value collapses to the scalar string while a multi-valued key keeps
the list, and a request with an empty query string (no `?` in the path, or
nothing after it) yields the empty mapping. -/
theorem C6_query_parsing (r : Request) (k : String) (vs : List String) :
    (Request.mk { RequestHeader.empty with path := "/search?q=a&q=b&x=1" }
        []).query =
      [("q", QueryVal.list ["a", "b"]), ("x", QueryVal.scalar "1")] ∧
    (dget (parse_qs r.query_string) k = some vs →
      dget r.query k =
        some (if vs.length = 1 then QueryVal.scalar (vs.headD "")
              else QueryVal.list vs)) ∧
    (r.query_string = "" → r.query = []) := by
  refine ⟨by decide, ?_, ?_⟩
  · intro h1
    by_cases hq : r.query_string = ""
    · rw [hq, show parse_qs "" = [] from rfl] at h1
      simp [dget] at h1
    · simp only [Request.query]
      rw [if_pos hq, dget_query_map, h1]
      rfl
  · intro h
    simp [Request.query, h]

/-- Witness for C6: the multi/single-valued lookups on the concrete
request. -/
theorem C6_query_parsing_witness :
    dget (Request.mk { RequestHeader.empty with
        path := "/search?q=a&q=b&x=1" } []).query "x" =
      some (QueryVal.scalar "1") :=
  ((C6_query_parsing
      (Request.mk { RequestHeader.empty with path := "/search?q=a&q=b&x=1" }
        []) "x" ["1"]).2.1 (by decide)).trans (by decide)

/-- C7: the request-header map stores every key lower-cased (an invariant
preserved by `__setitem__`), lookup, membership and `get` see any case
variant of a stored key, and inserting under two case variants of one key
leaves a single binding holding the last-written value. -/
theorem C7_header_map_case_insensitivity (h : RequestHeader)
    (k v k1 k2 v1 v2 : String) :
    ((∀ p ∈ h.headers, strLower p.1 = p.1) →
        ∀ p ∈ (h.setItem k v).headers, strLower p.1 = p.1) ∧
    (strLower k2 = strLower k →
      (h.setItem k v).getItem k2 = some v ∧
      (h.setItem k v).mem k2 = true ∧
      (h.setItem k v).get k2 none = some v) ∧
    ((h.headers.map Prod.fst).Nodup → strLower k1 = strLower k2 →
      ((h.setItem k1 v1).setItem k2 v2).headers.filter
          (fun p => p.1 = strLower k2) = [(strLower k2, v2)]) := by
  refine ⟨?_, ?_, ?_⟩
  · intro hinv p hp
    rcases mem_dset hp with hp2 | hp2
    · rw [hp2]
      exact strLower_idem k
    · exact hinv p hp2
  · intro he
    unfold RequestHeader.getItem RequestHeader.mem RequestHeader.get
      RequestHeader.setItem
    rw [he]
    refine ⟨dget_dset_self _ _ _, dmem_dset_self _ _ _, ?_⟩
    rw [dget_dset_self _ _ _]
  · intro hnd he
    exact filter_dset_key _ _ _ (keys_nodup_dset _ _ _ hnd)

/-- Witness for C7: case-insensitive lookup and last-write-wins on a
concrete header map. -/
theorem C7_header_map_case_insensitivity_witness :
    (RequestHeader.empty.setItem "X-Key" "1").getItem "x-KEY" = some "1" ∧
    List.filter (fun p => p.1 = strLower "ACCEPT")
        ((RequestHeader.empty.setItem "Accept" "a").setItem "ACCEPT"
          "b").headers =
      [(strLower "ACCEPT", "b")] :=
  ⟨((C7_header_map_case_insensitivity RequestHeader.empty "X-Key" "1"
      "" "x-KEY" "" "").2.1 (by decide)).1,
   (C7_header_map_case_insensitivity RequestHeader.empty "" ""
      "Accept" "ACCEPT" "a" "b").2.2 (by decide) (by decide)⟩

/-- C9: `set_cookie("sid", "1", max_age=60, http_only=True)` on a response
with no prior Set-Cookie header yields exactly
`Set-Cookie: sid=1; Max-Age=60; Path=/; HttpOnly` (Path defaulting to `/`,
attributes joined with `"; "`), and any further `set_cookie` call appends
its cookie line to the existing value, newline-separated, under the same
single `Set-Cookie` dict key (the header key set is unchanged). -/
theorem C9_set_cookie (r : Response) (v : String) (name value : String)
    (max_age : Option Int) (expires : Option String) (path : String)
    (domain : Option String) (secure http_only : Bool)
    (same_site : Option String)
    (hv : dget r.headers "Set-Cookie" = some v) :
    ((Response.mk 200 [] [] false).set_cookie "sid" "1" (some 60) none "/"
        none false true none).headers =
      [("Set-Cookie", "sid=1; Max-Age=60; Path=/; HttpOnly")] ∧
    dget (r.set_cookie name value max_age expires path domain secure
        http_only same_site).headers "Set-Cookie" =
      some (v ++ "\n" ++ cookieLine name value max_age expires path domain
        secure http_only same_site) ∧
    (r.set_cookie name value max_age expires path domain secure http_only
        same_site).headers.map Prod.fst = r.headers.map Prod.fst := by
  have hm : dmem r.headers "Set-Cookie" = true := dmem_of_dget hv
  refine ⟨by decide, ?_, ?_⟩
  · simp only [Response.set_cookie]
    rw [if_pos hm]
    simp only [hv, Option.getD_some]
    exact dget_dset_self _ _ _
  · simp only [Response.set_cookie]
    rw [if_pos hm]
    exact keys_dset_of_dmem _ _ _ hm

/-- Witness for C9: a second cookie appends to the first, newline
separated. -/
theorem C9_set_cookie_witness :
    dget ((Response.mk 200 [("Set-Cookie", "a=b")] [] false).set_cookie
        "x" "y" none none "/" none false false none).headers "Set-Cookie" =
      some "a=b\nx=y; Path=/" :=
  ((C9_set_cookie (Response.mk 200 [("Set-Cookie", "a=b")] [] false) "a=b"
      "x" "y" none none "/" none false false none rfl).2.1).trans (by decide)

/-- C10: the `content_length` accessor returns the parsed integer when the
stored Content-Length value parses as a Python `int`, and `None` — rather
than raising — both when the value does not parse (`except ValueError:
pass`) and when the header is absent. -/
theorem C10_content_length (h : RequestHeader) (s : String) (n : Int) :
    (RequestHeader.empty.setItem "Content-Length" "abc").content_length =
      none ∧
    (Request.mk (RequestHeader.empty.setItem "Content-Length" "abc")
        []).content_length = none ∧
    (h.get "content-length" none = some s → pyInt s = none →
      h.content_length = none) ∧
    (h.get "content-length" none = some s → pyInt s = some n →
      h.content_length = some n) ∧
    (h.get "content-length" none = none → h.content_length = none) := by
  refine ⟨by decide, by decide, ?_, ?_, ?_⟩
  · intro h1 h2
    simp [RequestHeader.content_length, h1, h2]
  · intro h1 h2
    simp [RequestHeader.content_length, h1, h2]
  · intro h1
    simp [RequestHeader.content_length, h1]

/-- Witness for C10 at the unparseable value `"abc"` and the parseable
`"7"`. -/
theorem C10_content_length_witness :
    (RequestHeader.empty.setItem "Content-Length" "abc").content_length =
      none ∧
    (RequestHeader.empty.setItem "Content-Length" "7").content_length =
      some 7 :=
  ⟨(C10_content_length (RequestHeader.empty.setItem "Content-Length" "abc")
      "abc" 0).2.2.1 (by decide) (by decide),
   (C10_content_length (RequestHeader.empty.setItem "Content-Length" "7")
      "7" 7).2.2.2.1 (by decide) (by decide)⟩

theorem requestLineFields_headers (lines : List String) :
    (requestLineFields lines).headers = [] := by
  rcases lines with _ | ⟨line0, rest⟩
  · rfl
  · simp only [requestLineFields]
    by_cases hs : ' ' ∈ line0.data
    · rw [if_pos hs]
      by_cases h3 : 3 ≤ (pySplitC ' ' line0).length
      · rw [if_pos h3]
        rfl
      · rw [if_neg h3]
        rfl
    · rw [if_neg hs]
      rfl

theorem headerObjOfLines_request_line (lines : List String) :
    (3 ≤ (pySplitC ' ' (lines.headD "")).length →
      (headerObjOfLines lines).method =
        (pySplitC ' ' (lines.headD "")).getD 0 "" ∧
      (headerObjOfLines lines).path =
        (pySplitC ' ' (lines.headD "")).getD 1 "" ∧
      (headerObjOfLines lines).http_version =
        (pySplitC ' ' (lines.headD "")).getD 2 "") ∧
    ((pySplitC ' ' (lines.headD "")).length < 3 →
      (headerObjOfLines lines).method = "" ∧
      (headerObjOfLines lines).path = "" ∧
      (headerObjOfLines lines).http_version = "") := by
  have hf := foldl_insertHeaderLine_fields (lines.drop 1)
    (requestLineFields lines)
  have hm : (headerObjOfLines lines).method =
      (requestLineFields lines).method := hf.1
  have hp : (headerObjOfLines lines).path =
      (requestLineFields lines).path := hf.2.1
  have hv : (headerObjOfLines lines).http_version =
      (requestLineFields lines).http_version := hf.2.2
  rw [hm, hp, hv]
  rcases lines with _ | ⟨line0, rest⟩
  · exact ⟨fun h3 => absurd h3 (by decide), fun _ => ⟨rfl, rfl, rfl⟩⟩
  · simp only [requestLineFields, List.headD_cons]
    constructor
    · intro h3
      have hlen : (pySplitC ' ' line0).length =
          (pySplit1 ' ' [] line0.data).length := List.length_map _ _
      have hs : ' ' ∈ line0.data :=
        mem_of_pySplit1_len ' ' [] line0.data (by omega)
      rw [if_pos hs, if_pos h3]
      exact ⟨rfl, rfl, rfl⟩
    · intro hlt
      by_cases hs : ' ' ∈ line0.data
      · rw [if_pos hs, if_neg (by omega)]
        exact ⟨rfl, rfl, rfl⟩
      · rw [if_neg hs]
        exact ⟨rfl, rfl, rfl⟩

/-- C8: parsing a raw header byte string never fails (the function is
total); when the first line splits on single spaces into at least three
tokens, the first three become method, path and HTTP version, and with
fewer tokens all three fields stay empty; every later line containing a
colon is split at the first colon, trimmed on both sides, and inserted
into the header map (its lower-cased trimmed key is present afterwards),
and conversely every entry of the final header map is the trimmed
key/value pair of such a line. -/
theorem C8_raw_header_parsing (header_data : List Nat) :
    (3 ≤ (pySplitC ' '
        ((pySplitCRLF (utf8DecodeReplace header_data)).headD "")).length →
      (RequestHeader.from_raw_headers header_data).method =
        (pySplitC ' '
          ((pySplitCRLF (utf8DecodeReplace header_data)).headD "")).getD 0 "" ∧
      (RequestHeader.from_raw_headers header_data).path =
        (pySplitC ' '
          ((pySplitCRLF (utf8DecodeReplace header_data)).headD "")).getD 1 "" ∧
      (RequestHeader.from_raw_headers header_data).http_version =
        (pySplitC ' '
          ((pySplitCRLF (utf8DecodeReplace header_data)).headD "")).getD 2 "") ∧
    ((pySplitC ' '
        ((pySplitCRLF (utf8DecodeReplace header_data)).headD "")).length < 3 →
      (RequestHeader.from_raw_headers header_data).method = "" ∧
      (RequestHeader.from_raw_headers header_data).path = "" ∧
      (RequestHeader.from_raw_headers header_data).http_version = "") ∧
    (∀ line ∈ (pySplitCRLF (utf8DecodeReplace header_data)).drop 1,
      ':' ∈ line.data →
      dmem (RequestHeader.from_raw_headers header_data).headers
        (strLower (pyStrip (splitColon1 line).1)) = true) ∧
    (∀ p ∈ (RequestHeader.from_raw_headers header_data).headers,
      ∃ line, line ∈ (pySplitCRLF (utf8DecodeReplace header_data)).drop 1 ∧
        ':' ∈ line.data ∧
        p.1 = strLower (pyStrip (splitColon1 line).1) ∧
        p.2 = pyStrip (splitColon1 line).2) := by
  refine ⟨(headerObjOfLines_request_line _).1,
    (headerObjOfLines_request_line _).2, ?_, ?_⟩
  · intro line hl hc
    exact dmem_foldl_insert_line _ _ hl hc _
  · intro p hp
    rcases mem_foldl_insert _ _ _ hp with h1 | h2
    · rw [requestLineFields_headers] at h1
      simp at h1
    · exact h2

/-- Witness for C8 on a concrete raw header byte string. -/
theorem C8_raw_header_parsing_witness :
    (RequestHeader.from_raw_headers
        (utf8 "GET /x HTTP/1.1\r\nHost: example.com")).method = "GET" ∧
    dmem (RequestHeader.from_raw_headers
        (utf8 "GET /x HTTP/1.1\r\nHost: example.com")).headers
      (strLower (pyStrip (splitColon1 "Host: example.com").1)) = true :=
  ⟨(((C8_raw_header_parsing
        (utf8 "GET /x HTTP/1.1\r\nHost: example.com")).1
      (by decide)).1).trans (by decide),
   (C8_raw_header_parsing (utf8 "GET /x HTTP/1.1\r\nHost: example.com")).2.2.1
      "Host: example.com" (by decide) (by decide)⟩

theorem compileTemplate_items :
    compileTemplate ['/', 'i', 't', 'e', 'm', 's', '/', '\x7b', 'i', 'd',
      '\x7d'] = [PatPart.lit "/items/", PatPart.var "id"] := by
  simp [compileTemplate, consLit,
    show lastBracePos ['i', 'd', '\x7d'] = some 2 from rfl]

theorem matchParts_items_42 :
    matchParts [PatPart.lit "/items/", PatPart.var "id"]
      ['/', 'i', 't', 'e', 'm', 's', '/', '4', '2'] = some [("id", "42")] := by
  simp [matchParts, varLoop]

theorem matchParts_items_abc :
    matchParts [PatPart.lit "/items/", PatPart.var "id"]
      ['/', 'i', 't', 'e', 'm', 's', '/', 'a', 'b', 'c'] =
      some [("id", "abc")] := by
  simp [matchParts, varLoop]

theorem route_items (f : Handler) :
    Router.route [] "/items/{id}" "GET" f =
      [([PatPart.lit "/items/", PatPart.var "id"], [("GET", f)])] := by
  simp [Router.route, compileTemplate_items, dset]

/-- C3: with `/items/{id}` registered for GET with a handler whose `id`
parameter is annotated `int` (the `request` parameter's class annotation
is never consulted, since only captured path-variable names are cast),
dispatching `/items/42` invokes that handler with `id` bound to the
integer `42` and emits whatever its response sends, while dispatching
`/items/abc` hits the `int("abc")` `ValueError`, which is absorbed into a
404 response with body `"Not Found"` rather than surfacing as a type
error. -/
theorem C3_path_variable_casting
    (f : Request → List (String × Value) → Response)
    (hdrs : List (String × String)) (body : List Nat) :
    handle_http
        (Router.route [] "/items/{id}" "GET"
          (Handler.mk [("request", none), ("id", some Ann.int)] f))
        (Scope.mk "GET" "/items/42" "1.1" hdrs)
        [Msg.httpRequest body false] =
      (match (f (Request.mk (parseScope (Scope.mk "GET" "/items/42" "1.1"
            hdrs)) body) [("id", Value.int 42)]).send with
       | Except.ok x => some x.1
       | Except.error _ => none) ∧
    handle_http
        (Router.route [] "/items/{id}" "GET"
          (Handler.mk [("request", none), ("id", some Ann.int)] f))
        (Scope.mk "GET" "/items/abc" "1.1" hdrs)
        [Msg.httpRequest body false] =
      some [Event.start 404 [("content-length", "9")],
            Event.body (utf8 "Not Found") false] := by
  rw [route_items]
  constructor
  · have h1 : findRoute
        [([PatPart.lit "/items/", PatPart.var "id"],
          [("GET", Handler.mk [("request", none), ("id", some Ann.int)] f)])]
        "/items/42" "GET" =
        (some (Handler.mk [("request", none), ("id", some Ann.int)] f),
         [("id", "42")]) := by
      simp [findRoute, matchParts_items_42, dget]
    have h2 : castPathVars [("request", none), ("id", some Ann.int)]
        [("id", "42")] = some [("id", Value.int 42)] := rfl
    simp [handle_http, accumBody, h1, h2]
  · have h1 : findRoute
        [([PatPart.lit "/items/", PatPart.var "id"],
          [("GET", Handler.mk [("request", none), ("id", some Ann.int)] f)])]
        "/items/abc" "GET" =
        (some (Handler.mk [("request", none), ("id", some Ann.int)] f),
         [("id", "abc")]) := by
      simp [findRoute, matchParts_items_abc, dget]
    simp [handle_http, accumBody, h1]
    rfl
